import Mathlib

set_option autoImplicit false

/-! Shallow embedding of the `*arr` suite API client (`src/arr-client.ts`).

The client is a thin HTTP executor: it builds an authenticated request from a
configured base URL, a fixed API-version segment and a relative endpoint,
performs one `fetch`, and either parses the JSON body (2xx) or throws an
error built from the service name, status, status text and body text.
JavaScript objects are modelled as association lists with object-literal
spread semantics; the platform primitives (`fetch`, `Response.text`,
`Response.json`, `URLSearchParams`, `JSON.stringify`) are modelled
explicitly below. -/

/-- JSON values (numbers restricted to integers, which covers every value the
client ever serializes). -/
inductive Json where
  | null
  | bool (b : Bool)
  | num (n : Int)
  | str (s : String)
  | arr (elems : List Json)
  | obj (fields : List (String × Json))

/-- Lowercase hex digit, as used by `JSON.stringify` in `\u00xx` escapes. -/
def hexLower (n : Nat) : Char :=
  if n < 10 then Char.ofNat (48 + n) else Char.ofNat (87 + n)

/-- Escaping of one character inside a JSON string literal, following
`JSON.stringify`: quote, backslash and the named control characters get
two-character escapes, the remaining control characters get `\u00xx`, and
every other character is emitted verbatim. -/
def escapeChars (c : Char) : List Char :=
  if c = '"' then ['\\', '"']
  else if c = '\\' then ['\\', '\\']
  else if c = '\x08' then ['\\', 'b']
  else if c = '\t' then ['\\', 't']
  else if c = '\n' then ['\\', 'n']
  else if c = '\x0c' then ['\\', 'f']
  else if c = '\r' then ['\\', 'r']
  else if c.toNat < 32 then
    ['\\', 'u', '0', '0', hexLower (c.toNat / 16), hexLower (c.toNat % 16)]
  else [c]

/-- Escaped content of a JSON string literal. -/
def escString : List Char → List Char
  | [] => []
  | c :: cs => escapeChars c ++ escString cs

/-- Fueled digit emitter; the fuel only drives structural recursion and is
irrelevant once it exceeds the argument. -/
def natCharsAux : Nat → Nat → List Char
  | 0, _ => []
  | fuel + 1, n =>
    if n < 10 then [Char.ofNat (48 + n)]
    else natCharsAux fuel (n / 10) ++ [Char.ofNat (48 + n % 10)]

/-- Decimal digits of a natural number, most significant first. -/
def natChars (n : Nat) : List Char :=
  natCharsAux (n + 1) n

/-- Decimal rendering of an integer, the form `JSON.stringify` produces for
the integral numbers the client serializes. -/
def intChars : Int → List Char
  | .ofNat m => natChars m
  | .negSucc m => '-' :: natChars (m + 1)

mutual

/-- Character-level model of `JSON.stringify` on the embedded universe. -/
def Json.renderChars : Json → List Char
  | .null => "null".data
  | .bool b => if b then "true".data else "false".data
  | .num n => intChars n
  | .str s => '"' :: (escString s.data ++ ['"'])
  | .arr xs => '[' :: Json.renderElems xs
  | .obj fs => '\x7b' :: Json.renderFields fs
termination_by structural j => j

/-- Elements of an array: empty renders the closing bracket, otherwise the
first element followed by the comma-separated tail. -/
def Json.renderElems : List Json → List Char
  | [] => [']']
  | x :: xs => Json.renderChars x ++ Json.renderElemsTail xs
termination_by structural l => l

/-- Comma-prefixed remaining array elements, ending in the closing bracket. -/
def Json.renderElemsTail : List Json → List Char
  | [] => [']']
  | x :: xs => ',' :: (Json.renderChars x ++ Json.renderElemsTail xs)
termination_by structural l => l

/-- Fields of an object: empty renders the closing brace, otherwise the first
`"key":value` pair followed by the comma-separated tail. -/
def Json.renderFields : List (String × Json) → List Char
  | [] => ['\x7d']
  | (k, v) :: fs =>
    '"' :: (escString k.data ++ (['"', ':'] ++
      (Json.renderChars v ++ Json.renderFieldsTail fs)))
termination_by structural l => l

/-- Comma-prefixed remaining object fields, ending in the closing brace. -/
def Json.renderFieldsTail : List (String × Json) → List Char
  | [] => ['\x7d']
  | (k, v) :: fs =>
    ',' :: '"' :: (escString k.data ++ (['"', ':'] ++
      (Json.renderChars v ++ Json.renderFieldsTail fs)))
termination_by structural l => l

end

/-- Model of `JSON.stringify`. -/
def Json.render (j : Json) : String :=
  String.mk (Json.renderChars j)

/-! A model of the platform's JSON parser (`JSON.parse`, the engine behind
`Response.json`), written to be provably a left inverse of the serializer
above on the embedded universe. -/

/-- Value of a hexadecimal digit character. -/
def hexVal (c : Char) : Option Nat :=
  if decide (48 ≤ c.toNat) && decide (c.toNat ≤ 57) then some (c.toNat - 48)
  else if decide (97 ≤ c.toNat) && decide (c.toNat ≤ 102) then some (c.toNat - 87)
  else if decide (65 ≤ c.toNat) && decide (c.toNat ≤ 70) then some (c.toNat - 55)
  else none

/-- Decimal digit test. -/
def isDigitCh (c : Char) : Bool :=
  decide (48 ≤ c.toNat) && decide (c.toNat ≤ 57)

/-- Longest leading run of decimal digits, and the remainder. -/
def takeDigits : List Char → List Char × List Char
  | [] => ([], [])
  | c :: cs =>
    if isDigitCh c then
      let p := takeDigits cs
      (c :: p.1, p.2)
    else ([], c :: cs)

/-- Numeric value of a digit run. -/
def digitsVal (ds : List Char) : Nat :=
  ds.foldl (fun acc c => acc * 10 + (c.toNat - 48)) 0

/-- Parse a nonempty leading digit run. -/
def parseNat (cs : List Char) : Option (Nat × List Char) :=
  match takeDigits cs with
  | ([], _) => none
  | (ds, r) => some (digitsVal ds, r)

/-- Interpretation of one escape name (the character after a backslash that
is not `u`). -/
def unescapeChar (e : Char) : Option Char :=
  if e = '"' then some '"'
  else if e = '\\' then some '\\'
  else if e = '/' then some '/'
  else if e = 'b' then some '\x08'
  else if e = 't' then some '\t'
  else if e = 'n' then some '\n'
  else if e = 'f' then some '\x0c'
  else if e = 'r' then some '\r'
  else none

/-- Consume an expected literal run of characters. -/
def expectLit : List Char → List Char → Option (List Char)
  | [], cs => some cs
  | _ :: _, [] => none
  | l :: ls, c :: cs => if c = l then expectLit ls cs else none

mutual

/-- Parse the body of a JSON string literal after the opening quote, up to
and including the closing quote, undoing the escapes. -/
def parseStringBody : List Char → Option (List Char × List Char)
  | [] => none
  | c :: rest =>
    if c = '"' then some ([], rest)
    else if c = '\\' then parseEscape rest
    else (parseStringBody rest).map fun p => (c :: p.1, p.2)
termination_by structural cs => cs

/-- Parse one escape sequence after a backslash, then the remaining string
body. -/
def parseEscape : List Char → Option (List Char × List Char)
  | 'u' :: h1 :: h2 :: h3 :: h4 :: rest3 =>
    match hexVal h1, hexVal h2, hexVal h3, hexVal h4 with
    | some v1, some v2, some v3, some v4 =>
      (parseStringBody rest3).map fun p =>
        (Char.ofNat (((v1 * 16 + v2) * 16 + v3) * 16 + v4) :: p.1, p.2)
    | _, _, _, _ => none
  | e :: rest2 =>
    match unescapeChar e with
    | some d => (parseStringBody rest2).map fun p => (d :: p.1, p.2)
    | none => none
  | [] => none
termination_by structural cs => cs

end

mutual

/-- Fueled parser for one JSON value. -/
def parseValue : Nat → List Char → Option (Json × List Char)
  | 0, _ => none
  | fuel + 1, cs =>
    match cs with
    | [] => none
    | c :: rest =>
      if c = 'n' then
        (expectLit ['u', 'l', 'l'] rest).map fun r => (.null, r)
      else if c = 't' then
        (expectLit ['r', 'u', 'e'] rest).map fun r => (.bool true, r)
      else if c = 'f' then
        (expectLit ['a', 'l', 's', 'e'] rest).map fun r => (.bool false, r)
      else if c = '"' then
        (parseStringBody rest).map fun p => (.str (String.mk p.1), p.2)
      else if c = '[' then
        (parseArrayElems fuel rest).map fun p => (.arr p.1, p.2)
      else if c = '\x7b' then
        (parseObjFields fuel rest).map fun p => (.obj p.1, p.2)
      else if c = '-' then
        (parseNat rest).map fun p => (.num (-(p.1 : Int)), p.2)
      else (parseNat (c :: rest)).map fun p => (.num (p.1 : Int), p.2)
termination_by structural fuel cs => fuel

/-- Elements of an array after the opening bracket. -/
def parseArrayElems : Nat → List Char → Option (List Json × List Char)
  | 0, _ => none
  | fuel + 1, cs =>
    match cs with
    | [] => none
    | c :: rest =>
      if c = ']' then some ([], rest)
      else
        (parseValue fuel (c :: rest)).bind fun p =>
          (parseArrayTail fuel p.2).map fun q => (p.1 :: q.1, q.2)
termination_by structural fuel cs => fuel

/-- Remaining comma-separated elements of an array. -/
def parseArrayTail : Nat → List Char → Option (List Json × List Char)
  | 0, _ => none
  | fuel + 1, cs =>
    match cs with
    | [] => none
    | c :: rest =>
      if c = ']' then some ([], rest)
      else if c = ',' then
        (parseValue fuel rest).bind fun p =>
          (parseArrayTail fuel p.2).map fun q => (p.1 :: q.1, q.2)
      else none
termination_by structural fuel cs => fuel

/-- Fields of an object after the opening brace. -/
def parseObjFields : Nat → List Char → Option (List (String × Json) × List Char)
  | 0, _ => none
  | fuel + 1, cs =>
    match cs with
    | [] => none
    | c :: rest =>
      if c = '\x7d' then some ([], rest)
      else
        (parseField fuel (c :: rest)).bind fun p =>
          (parseObjTail fuel p.2).map fun q => (p.1 :: q.1, q.2)
termination_by structural fuel cs => fuel

/-- One `"key":value` field. -/
def parseField : Nat → List Char → Option ((String × Json) × List Char)
  | 0, _ => none
  | fuel + 1, cs =>
    match cs with
    | [] => none
    | c :: rest =>
      if c = '"' then
        (parseStringBody rest).bind fun p =>
          match p.2 with
          | [] => none
          | d :: cs3 =>
            if d = ':' then
              (parseValue fuel cs3).map fun q => ((String.mk p.1, q.1), q.2)
            else none
      else none
termination_by structural fuel cs => fuel

/-- Remaining comma-separated fields of an object. -/
def parseObjTail : Nat → List Char → Option (List (String × Json) × List Char)
  | 0, _ => none
  | fuel + 1, cs =>
    match cs with
    | [] => none
    | c :: rest =>
      if c = '\x7d' then some ([], rest)
      else if c = ',' then
        (parseField fuel rest).bind fun p =>
          (parseObjTail fuel p.2).map fun q => (p.1 :: q.1, q.2)
      else none
termination_by structural fuel cs => fuel

end

/-- Model of `JSON.parse`: parses the whole string as one JSON value. -/
def Json.parse (s : String) : Option Json :=
  match parseValue (s.data.length + 1) s.data with
  | some (j, []) => some j
  | _ => none

/-- A character list that does not begin with a decimal digit (the shape of
every remainder the round-trip lemmas thread through the number parser). -/
def nonDigitStart : List Char → Prop
  | [] => True
  | c :: _ => isDigitCh c = false

/-! JavaScript objects as association lists, with the semantics of object
literals: reading takes the (unique) entry for a key; writing a key that is
present updates it in place, otherwise appends; a spread `{...a, ...b}`
writes the entries of `b` over `a` one at a time. -/

/-- Read a key from an object (first matching entry). -/
def objGet {α : Type} : List (String × α) → String → Option α
  | [], _ => none
  | p :: rest, k => if p.1 = k then some p.2 else objGet rest k

/-- Key membership in an object. -/
def hasKey {α : Type} : List (String × α) → String → Bool
  | [], _ => false
  | p :: rest, k => if p.1 = k then true else hasKey rest k

/-- Overwrite every entry carrying the given key. -/
def objSet {α : Type} : List (String × α) → String → α → List (String × α)
  | [], _, _ => []
  | p :: rest, k, v => (if p.1 = k then (p.1, v) else p) :: objSet rest k v

/-- Write a key: update in place when present, append otherwise (JavaScript
property assignment on an object literal). -/
def objUpsert {α : Type} (o : List (String × α)) (k : String) (v : α) :
    List (String × α) :=
  if hasKey o k then objSet o k v else o ++ [(k, v)]

/-- Object spread `{...base, ...overrides}`. -/
def objSpread {α : Type} (base overrides : List (String × α)) :
    List (String × α) :=
  overrides.foldl (fun acc p => objUpsert acc p.1 p.2) base

/-! The data model of the client itself (`arr-client.ts`, lines 8–13 and
445–456). -/

/-- Identifiers of the five service families (the `ArrService` union type). -/
inductive ArrService where
  | sonarr
  | radarr
  | lidarr
  | readarr
  | prowlarr
  deriving DecidableEq

/-- String form of a service identifier, as it appears in error messages. -/
def ArrService.name : ArrService → String
  | .sonarr => "sonarr"
  | .radarr => "radarr"
  | .lidarr => "lidarr"
  | .readarr => "readarr"
  | .prowlarr => "prowlarr"

/-- Service configuration: base URL and API key (`ArrConfig`). -/
structure ArrConfig where
  url : String
  apiKey : String
  deriving DecidableEq

/-- Client state: configuration (with normalized URL), service identifier and
API version segment. Immutable after construction. -/
structure ArrClient where
  config : ArrConfig
  serviceName : ArrService
  apiVersion : String
  deriving DecidableEq

/-- Normalization applied to the base URL once, in the constructor:
`config.url.replace(/\/$/, '')` removes one trailing slash when present. -/
def stripTrailingSlash (s : String) : String :=
  if s.data.getLast? = some '/' then String.mk s.data.dropLast else s

/-- The `ArrClient` constructor (lines 450–456): stores the service name and
the configuration with the base URL normalized; the version field defaults
to `v3`. -/
def ArrClient.create (serviceName : ArrService) (config : ArrConfig) : ArrClient :=
  { serviceName := serviceName
    config := { url := stripTrailingSlash config.url, apiKey := config.apiKey }
    apiVersion := "v3" }

/-- The `SonarrClient` constructor: `super('sonarr', config)`. -/
def SonarrClient.create (config : ArrConfig) : ArrClient :=
  ArrClient.create .sonarr config

/-- The `RadarrClient` constructor: `super('radarr', config)`. -/
def RadarrClient.create (config : ArrConfig) : ArrClient :=
  ArrClient.create .radarr config

/-- The `LidarrClient` constructor: `super('lidarr', config)` then
`this.apiVersion = 'v1'`. -/
def LidarrClient.create (config : ArrConfig) : ArrClient :=
  { ArrClient.create .lidarr config with apiVersion := "v1" }

/-- The `ReadarrClient` constructor: `super('readarr', config)` then
`this.apiVersion = 'v1'`. -/
def ReadarrClient.create (config : ArrConfig) : ArrClient :=
  { ArrClient.create .readarr config with apiVersion := "v1" }

/-- The `ProwlarrClient` constructor: `super('prowlarr', config)` then
`this.apiVersion = 'v1'`. -/
def ProwlarrClient.create (config : ArrConfig) : ArrClient :=
  { ArrClient.create .prowlarr config with apiVersion := "v1" }

/-! The HTTP layer: requests, responses, and the outcome of a `fetch` call.
`Response.text()` and `Response.json()` are fallible platform operations;
they are modelled as `Except` fields of the response. -/

/-- Options passed to `request` (the used subset of `RequestInit`). -/
structure RequestInit where
  method : String := "GET"
  headers : List (String × String) := []
  body : Option String := none
  deriving DecidableEq

/-- The request handed to `fetch`: full URL, method, merged headers, body. -/
structure HttpRequest where
  url : String
  method : String
  headers : List (String × String)
  body : Option String
  deriving DecidableEq

/-- An HTTP response. `textBody` is the result of `await response.text()`
(`Except.error` when the body stream is unreadable); `jsonBody` is the result
of `await response.json()` (`Except.error` when the body is not valid
JSON). -/
structure HttpResponse where
  status : Nat
  statusText : String
  textBody : Except String String
  jsonBody : Except String Json

/-- The `Response.ok` flag of the fetch API: status in the range 200–299. -/
def HttpResponse.ok (r : HttpResponse) : Bool :=
  decide (200 ≤ r.status) && decide (r.status ≤ 299)

/-- Outcome of `await fetch(...)`: a response, or a rejection (network
failure). -/
inductive FetchOutcome where
  | success (response : HttpResponse)
  | failure (message : String)

/-- The ways `request` can fail: the explicitly thrown API error built from
service name, status, status text and body text (line 476), or a propagated
rejection of `fetch`, `response.text()` or `response.json()`. -/
inductive ArrFailure where
  | apiError (service : String) (status : Nat) (statusText : String) (body : String)
  | fetchFailed (message : String)
  | textFailed (message : String)
  | jsonFailed (message : String)
  deriving DecidableEq

/-- Message of the thrown `Error` for an API failure, exactly as interpolated
on line 476. -/
def ArrFailure.message : ArrFailure → String
  | .apiError service status statusText body =>
    service ++ " API error: " ++ toString status ++ " " ++ statusText ++ " - " ++ body
  | .fetchFailed m => m
  | .textFailed m => m
  | .jsonFailed m => m

/-- Default headers set on every request (lines 463–467, before the spread of
caller-supplied headers). -/
def ArrClient.defaultHeaders (c : ArrClient) : List (String × String) :=
  [("Content-Type", "application/json"), ("X-Api-Key", c.config.apiKey)]

/-- The request handed to `fetch`: URL template
`{url}/api/{apiVersion}{endpoint}` (line 462) and headers obtained by
spreading the caller's headers over the defaults (lines 463–467). -/
def ArrClient.buildRequest (c : ArrClient) (endpoint : String)
    (options : RequestInit) : HttpRequest :=
  { url := c.config.url ++ "/api/" ++ c.apiVersion ++ endpoint
    method := options.method
    headers := objSpread c.defaultHeaders options.headers
    body := options.body }

/-- The request executor (lines 461–480). It performs exactly one `fetch`;
the list component records the requests actually sent. On a response with
`ok` it returns `response.json()`; otherwise it reads `response.text()` and
fails with the API error; rejections of `fetch`/`text()`/`json()`
propagate. -/
def ArrClient.request (c : ArrClient) (endpoint : String) (options : RequestInit)
    (fetch : HttpRequest → FetchOutcome) :
    Except ArrFailure Json × List HttpRequest :=
  let req := c.buildRequest endpoint options
  match fetch req with
  | .failure msg => (.error (.fetchFailed msg), [req])
  | .success response =>
    if response.ok then
      match response.jsonBody with
      | .ok j => (.ok j, [req])
      | .error msg => (.error (.jsonFailed msg), [req])
    else
      match response.textBody with
      | .ok text =>
        (.error (.apiError c.serviceName.name response.status response.statusText text),
          [req])
      | .error msg => (.error (.textFailed msg), [req])

/-! Endpoint methods. Each is a one-line delegation to `request`; the
`fetch` argument stands for the platform transport. -/

/-- The method `getStatus` (line 485): GET `/system/status`. -/
def ArrClient.getStatus (c : ArrClient) (fetch : HttpRequest → FetchOutcome) :
    Except ArrFailure Json × List HttpRequest :=
  c.request "/system/status" {} fetch

/-- The method `getQueue` (line 492). -/
def ArrClient.getQueue (c : ArrClient) (fetch : HttpRequest → FetchOutcome) :
    Except ArrFailure Json × List HttpRequest :=
  c.request "/queue?includeUnknownSeriesItems=true&includeUnknownMovieItems=true" {} fetch

/-- The method `getQualityProfiles` (line 529): GET `/qualityprofile`. -/
def ArrClient.getQualityProfiles (c : ArrClient) (fetch : HttpRequest → FetchOutcome) :
    Except ArrFailure Json × List HttpRequest :=
  c.request "/qualityprofile" {} fetch

/-- The method `testConnection` (lines 517–524): `getStatus` wrapped in
`try`/`catch`, yielding a boolean. -/
def ArrClient.testConnection (c : ArrClient) (fetch : HttpRequest → FetchOutcome) :
    Bool × List HttpRequest :=
  match c.getStatus fetch with
  | (.ok _, trace) => (true, trace)
  | (.error _, trace) => (false, trace)

/-! The `URLSearchParams` platform class, as used by the calendar methods:
a list of appended key/value pairs, serialized in
`application/x-www-form-urlencoded` form. -/

/-- Uppercase hex digit used in percent escapes. -/
def hexUpper (n : Nat) : Char :=
  if n < 10 then Char.ofNat (48 + n) else Char.ofNat (55 + n)

/-- UTF-8 bytes of one character. -/
def utf8Bytes (c : Char) : List Nat :=
  let n := c.toNat
  if n < 128 then [n]
  else if n < 2048 then [192 + n / 64, 128 + n % 64]
  else if n < 65536 then [224 + n / 4096, 128 + (n / 64) % 64, 128 + n % 64]
  else [240 + n / 262144, 128 + (n / 4096) % 64, 128 + (n / 64) % 64, 128 + n % 64]

/-- Characters serialized verbatim by `URLSearchParams`: alphanumerics and
`*`, `-`, `.`, `_`. -/
def formSafeChar (c : Char) : Bool :=
  (decide (48 ≤ c.toNat) && decide (c.toNat ≤ 57)) ||
  (decide (65 ≤ c.toNat) && decide (c.toNat ≤ 90)) ||
  (decide (97 ≤ c.toNat) && decide (c.toNat ≤ 122)) ||
  c == '*' || c == '-' || c == '.' || c == '_'

/-- Form-urlencoded serialization of one character: safe characters verbatim,
space as `+`, everything else percent-encoded byte by byte. -/
def formEncodeChar (c : Char) : String :=
  if c = ' ' then "+"
  else if formSafeChar c then String.singleton c
  else String.join ((utf8Bytes c).map fun b =>
    "%" ++ String.singleton (hexUpper (b / 16)) ++ String.singleton (hexUpper (b % 16)))

/-- Form-urlencoded serialization of a string. -/
def formEncode (s : String) : String :=
  String.join (s.data.map formEncodeChar)

/-- The `toString()` of a `URLSearchParams` holding the given entries:
`key=value` pairs, form-encoded, joined with `&`. -/
def searchParamsToString : List (String × String) → String
  | [] => ""
  | [p] => formEncode p.1 ++ "=" ++ formEncode p.2
  | p :: q :: rest =>
    formEncode p.1 ++ "=" ++ formEncode p.2 ++ "&" ++ searchParamsToString (q :: rest)

/-- JavaScript truthiness of an optional string (`undefined` and the empty
string are falsy). -/
def truthyStr : Option String → Bool
  | none => false
  | some s => !(s == "")

/-- The parameter list built by the calendar methods: `start` is appended
when truthy, then `end` when truthy. -/
def calendarParams (startDate endDate : Option String) : List (String × String) :=
  (if truthyStr startDate then [("start", startDate.getD "")] else []) ++
    (if truthyStr endDate then [("end", endDate.getD "")] else [])

/-- The endpoint string built by the calendar methods: `/calendar` followed
by `?` and the serialized parameters when that serialization is truthy. -/
def calendarEndpoint (startDate endDate : Option String) : String :=
  let query := searchParamsToString (calendarParams startDate endDate)
  "/calendar" ++ (if query == "" then "" else "?" ++ query)

/-- The method `ArrClient.getCalendar` (lines 499–505). -/
def ArrClient.getCalendar (c : ArrClient) (startDate endDate : Option String)
    (fetch : HttpRequest → FetchOutcome) :
    Except ArrFailure Json × List HttpRequest :=
  c.request (calendarEndpoint startDate endDate) {} fetch

/-- The override `LidarrClient.getCalendar` (lines 816–822), whose body is
the same parameter construction. -/
def LidarrClient.getCalendar (c : ArrClient) (startDate endDate : Option String)
    (fetch : HttpRequest → FetchOutcome) :
    Except ArrFailure Json × List HttpRequest :=
  c.request (calendarEndpoint startDate endDate) {} fetch

/-- The override `ReadarrClient.getCalendar` (lines 919–925), whose body is
the same parameter construction. -/
def ReadarrClient.getCalendar (c : ArrClient) (startDate endDate : Option String)
    (fetch : HttpRequest → FetchOutcome) :
    Except ArrFailure Json × List HttpRequest :=
  c.request (calendarEndpoint startDate endDate) {} fetch

/-! Command (trigger-search) methods: POST to `/command` with a fixed
command name and the entity id, serialized with `JSON.stringify`. -/

/-- The method `SonarrClient.searchMissing` (lines 638–646): command
`SeriesSearch` with field `seriesId`. -/
def SonarrClient.searchMissing (c : ArrClient) (seriesId : Int)
    (fetch : HttpRequest → FetchOutcome) :
    Except ArrFailure Json × List HttpRequest :=
  c.request "/command"
    { method := "POST"
      body := some (Json.render (.obj
        [("name", .str "SeriesSearch"), ("seriesId", .num seriesId)])) } fetch

/-- The method `RadarrClient.searchMovie` (lines 718–726): command
`MoviesSearch` with field `movieIds` holding the singleton id array. -/
def RadarrClient.searchMovie (c : ArrClient) (movieId : Int)
    (fetch : HttpRequest → FetchOutcome) :
    Except ArrFailure Json × List HttpRequest :=
  c.request "/command"
    { method := "POST"
      body := some (Json.render (.obj
        [("name", .str "MoviesSearch"), ("movieIds", .arr [.num movieId])])) } fetch

/-- The method `LidarrClient.searchAlbum` (lines 803–811): command
`AlbumSearch` with field `albumIds` holding the singleton id array. -/
def LidarrClient.searchAlbum (c : ArrClient) (albumId : Int)
    (fetch : HttpRequest → FetchOutcome) :
    Except ArrFailure Json × List HttpRequest :=
  c.request "/command"
    { method := "POST"
      body := some (Json.render (.obj
        [("name", .str "AlbumSearch"), ("albumIds", .arr [.num albumId])])) } fetch

/-- The method `ReadarrClient.searchMissingBooks` (lines 893–901): command
`AuthorSearch` with field `authorId`. -/
def ReadarrClient.searchMissingBooks (c : ArrClient) (authorId : Int)
    (fetch : HttpRequest → FetchOutcome) :
    Except ArrFailure Json × List HttpRequest :=
  c.request "/command"
    { method := "POST"
      body := some (Json.render (.obj
        [("name", .str "AuthorSearch"), ("authorId", .num authorId)])) } fetch

/-! Add methods: POST of the caller payload spread into an object literal
that re-writes `monitored` (nullish-coalesced to `true`), for Sonarr also
`seasonFolder`, and always writes a fixed `addOptions` object. -/

/-- JavaScript nullish test on an optional JSON value (`undefined` or
`null`). -/
def jsonNullish : Option Json → Bool
  | none => true
  | some .null => true
  | some _ => false

/-- The operator `x ?? d` applied to an optional JSON property value. -/
def jsonCoalesce (v : Option Json) (d : Json) : Json :=
  if jsonNullish v then d else v.getD d

/-- The body object of `SonarrClient.addSeries` (lines 622–631):
`{...series, monitored: series.monitored ?? true, seasonFolder:
series.seasonFolder ?? true, addOptions: {searchForMissingEpisodes:
true}}`. -/
def SonarrClient.addSeriesPayload (series : List (String × Json)) :
    List (String × Json) :=
  objUpsert (objUpsert (objUpsert series
    "monitored" (jsonCoalesce (objGet series "monitored") (.bool true)))
    "seasonFolder" (jsonCoalesce (objGet series "seasonFolder") (.bool true)))
    "addOptions" (.obj [("searchForMissingEpisodes", .bool true)])

/-- The method `SonarrClient.addSeries` (lines 621–633). -/
def SonarrClient.addSeries (c : ArrClient) (series : List (String × Json))
    (fetch : HttpRequest → FetchOutcome) :
    Except ArrFailure Json × List HttpRequest :=
  c.request "/series"
    { method := "POST"
      body := some (Json.render (.obj (SonarrClient.addSeriesPayload series))) } fetch

/-- The body object of `RadarrClient.addMovie` (lines 703–712). -/
def RadarrClient.addMoviePayload (movie : List (String × Json)) :
    List (String × Json) :=
  objUpsert (objUpsert movie
    "monitored" (jsonCoalesce (objGet movie "monitored") (.bool true)))
    "addOptions" (.obj [("searchForMovie", .bool true)])

/-- The method `RadarrClient.addMovie` (lines 702–713). -/
def RadarrClient.addMovie (c : ArrClient) (movie : List (String × Json))
    (fetch : HttpRequest → FetchOutcome) :
    Except ArrFailure Json × List HttpRequest :=
  c.request "/movie"
    { method := "POST"
      body := some (Json.render (.obj (RadarrClient.addMoviePayload movie))) } fetch

/-- The body object of `LidarrClient.addArtist` (lines 760–769). -/
def LidarrClient.addArtistPayload (artist : List (String × Json)) :
    List (String × Json) :=
  objUpsert (objUpsert artist
    "monitored" (jsonCoalesce (objGet artist "monitored") (.bool true)))
    "addOptions" (.obj [("searchForMissingAlbums", .bool true)])

/-- The method `LidarrClient.addArtist` (lines 759–770). -/
def LidarrClient.addArtist (c : ArrClient) (artist : List (String × Json))
    (fetch : HttpRequest → FetchOutcome) :
    Except ArrFailure Json × List HttpRequest :=
  c.request "/artist"
    { method := "POST"
      body := some (Json.render (.obj (LidarrClient.addArtistPayload artist))) } fetch

/-- The body object of `ReadarrClient.addAuthor` (lines 863–872). -/
def ReadarrClient.addAuthorPayload (author : List (String × Json)) :
    List (String × Json) :=
  objUpsert (objUpsert author
    "monitored" (jsonCoalesce (objGet author "monitored") (.bool true)))
    "addOptions" (.obj [("searchForMissingBooks", .bool true)])

/-- The method `ReadarrClient.addAuthor` (lines 862–873). -/
def ReadarrClient.addAuthor (c : ArrClient) (author : List (String × Json))
    (fetch : HttpRequest → FetchOutcome) :
    Except ArrFailure Json × List HttpRequest :=
  c.request "/author"
    { method := "POST"
      body := some (Json.render (.obj (ReadarrClient.addAuthorPayload author))) } fetch

/-- A sequence of calls against a per-call fixed remote outcome: each entry
is an endpoint, options, and the outcome the remote produces for that call. -/
def ArrClient.runCalls (c : ArrClient) :
    List (String × RequestInit × FetchOutcome) →
    List (Except ArrFailure Json × List HttpRequest)
  | [] => []
  | (endpoint, options, outcome) :: rest =>
    c.request endpoint options (fun _ => outcome) :: ArrClient.runCalls c rest

/-! Lemmas about the object operations. -/

theorem objGet_append {α : Type} (l1 l2 : List (String × α)) (k : String) :
    objGet (l1 ++ l2) k =
      match objGet l1 k with
      | some v => some v
      | none => objGet l2 k := by
  induction l1 with
  | nil => simp [objGet]
  | cons p rest ih =>
    by_cases h : p.1 = k <;> simp [objGet, h, ih]

theorem objGet_eq_none_of_hasKey_false {α : Type} {o : List (String × α)} {k : String}
    (h : hasKey o k = false) : objGet o k = none := by
  induction o with
  | nil => rfl
  | cons p rest ih =>
    by_cases hp : p.1 = k
    · simp [hasKey, hp] at h
    · simp [hasKey, hp] at h
      simp [objGet, hp, ih h]

theorem objGet_objSet_self {α : Type} {o : List (String × α)} {k : String}
    (h : hasKey o k = true) (v : α) : objGet (objSet o k v) k = some v := by
  induction o with
  | nil => simp [hasKey] at h
  | cons p rest ih =>
    by_cases hp : p.1 = k
    · simp [objSet, objGet, hp]
    · simp [hasKey, hp] at h
      simp [objSet, objGet, hp, ih h]

theorem objGet_objSet_other {α : Type} (o : List (String × α)) {q k : String}
    (h : ¬q = k) (v : α) : objGet (objSet o q v) k = objGet o k := by
  induction o with
  | nil => rfl
  | cons p rest ih =>
    by_cases hp : p.1 = q
    · simp [objSet, objGet, hp, h, ih]
    · simp [objSet, objGet, hp, ih]

theorem objGet_objUpsert_self {α : Type} (o : List (String × α)) (k : String) (v : α) :
    objGet (objUpsert o k v) k = some v := by
  unfold objUpsert
  cases h : hasKey o k with
  | true => simp [objGet_objSet_self h]
  | false =>
    simp only [Bool.false_eq_true, if_false]
    rw [objGet_append, objGet_eq_none_of_hasKey_false h]
    simp [objGet]

theorem objGet_objUpsert_other {α : Type} (o : List (String × α)) {q k : String}
    (h : ¬q = k) (v : α) : objGet (objUpsert o q v) k = objGet o k := by
  unfold objUpsert
  cases hq : hasKey o q with
  | true => simp [objGet_objSet_other o h]
  | false =>
    simp only [Bool.false_eq_true, if_false]
    rw [objGet_append]
    cases hg : objGet o k <;> simp [objGet, h]

theorem hasKey_append {α : Type} (l1 l2 : List (String × α)) (k : String) :
    hasKey (l1 ++ l2) k = (hasKey l1 k || hasKey l2 k) := by
  induction l1 with
  | nil => simp [hasKey]
  | cons p rest ih =>
    by_cases h : p.1 = k <;> simp [hasKey, h, ih]

theorem hasKey_reverse {α : Type} (o : List (String × α)) (k : String) :
    hasKey o.reverse k = hasKey o k := by
  induction o with
  | nil => rfl
  | cons p rest ih =>
    by_cases h : p.1 = k <;>
      simp [List.reverse_cons, hasKey_append, hasKey, h, ih, Bool.or_comm]

theorem objGet_objSpread {α : Type} (base ov : List (String × α)) (k : String) :
    objGet (objSpread base ov) k =
      match objGet ov.reverse k with
      | some v => some v
      | none => objGet base k := by
  induction ov generalizing base with
  | nil => simp [objSpread, objGet]
  | cons p rest ih =>
    have hstep : objSpread base (p :: rest) = objSpread (objUpsert base p.1 p.2) rest := rfl
    rw [hstep, ih, List.reverse_cons, objGet_append]
    cases hr : objGet rest.reverse k with
    | some v => rfl
    | none =>
      by_cases hp : p.1 = k
      · subst hp
        simp [objGet, objGet_objUpsert_self]
      · simp [objGet, hp, objGet_objUpsert_other base hp]

theorem objGet_reverse_eq_none {α : Type} {o : List (String × α)} {k : String}
    (h : hasKey o k = false) : objGet o.reverse k = none :=
  objGet_eq_none_of_hasKey_false (by rw [hasKey_reverse]; exact h)

/-! Lemmas about the request executor. -/

theorem ArrClient.request_trace (c : ArrClient) (endpoint : String)
    (options : RequestInit) (fetch : HttpRequest → FetchOutcome) :
    (c.request endpoint options fetch).2 = [c.buildRequest endpoint options] := by
  unfold ArrClient.request
  cases h : fetch (c.buildRequest endpoint options) with
  | failure m => simp [h]
  | success resp =>
    simp only [h]
    by_cases hok : resp.ok = true
    · cases hj : resp.jsonBody <;> simp [hok, hj]
    · cases ht : resp.textBody <;> simp [hok, ht]

theorem ArrClient.request_success {c : ArrClient} {endpoint : String}
    {options : RequestInit} {fetch : HttpRequest → FetchOutcome}
    {resp : HttpResponse} {j : Json}
    (h : fetch (c.buildRequest endpoint options) = .success resp)
    (hok : resp.ok = true) (hj : resp.jsonBody = .ok j) :
    (c.request endpoint options fetch).1 = .ok j := by
  unfold ArrClient.request
  simp [h, hok, hj]

theorem ArrClient.request_parseFailure {c : ArrClient} {endpoint : String}
    {options : RequestInit} {fetch : HttpRequest → FetchOutcome}
    {resp : HttpResponse} {msg : String}
    (h : fetch (c.buildRequest endpoint options) = .success resp)
    (hok : resp.ok = true) (hj : resp.jsonBody = .error msg) :
    (c.request endpoint options fetch).1 = .error (.jsonFailed msg) := by
  unfold ArrClient.request
  simp [h, hok, hj]

theorem ArrClient.request_apiError {c : ArrClient} {endpoint : String}
    {options : RequestInit} {fetch : HttpRequest → FetchOutcome}
    {resp : HttpResponse} {t : String}
    (h : fetch (c.buildRequest endpoint options) = .success resp)
    (hok : resp.ok = false) (ht : resp.textBody = .ok t) :
    (c.request endpoint options fetch).1 =
      .error (.apiError c.serviceName.name resp.status resp.statusText t) := by
  unfold ArrClient.request
  simp [h, hok, ht]

/-! Round-trip lemmas: the parser inverts the serializer. First the digit
emitter. -/

theorem natCharsAux_irrel (n : Nat) : ∀ f1 f2 : Nat, n < f1 → n < f2 →
    natCharsAux f1 n = natCharsAux f2 n := by
  induction n using Nat.strong_induction_on with
  | _ n ih =>
    intro f1 f2 h1 h2
    obtain ⟨g1, rfl⟩ : ∃ g, f1 = g + 1 := ⟨f1 - 1, by omega⟩
    obtain ⟨g2, rfl⟩ : ∃ g, f2 = g + 1 := ⟨f2 - 1, by omega⟩
    by_cases hn : n < 10
    · simp [natCharsAux, hn]
    · have hd : n / 10 < n := Nat.div_lt_self (by omega) (by omega)
      simp only [natCharsAux, hn, if_false]
      rw [ih (n / 10) hd g1 g2 (by omega) (by omega)]

theorem natChars_eq (n : Nat) : natChars n =
    if n < 10 then [Char.ofNat (48 + n)]
    else natChars (n / 10) ++ [Char.ofNat (48 + n % 10)] := by
  show natCharsAux (n + 1) n = _
  by_cases hn : n < 10
  · simp [natCharsAux, hn]
  · have hd : n / 10 < n := Nat.div_lt_self (by omega) (by omega)
    simp only [natCharsAux, hn, if_false]
    rw [natCharsAux_irrel (n / 10) n (n / 10 + 1) (by omega) (by omega)]
    rfl

theorem toNat_digitChar (d : Nat) (h : d < 10) :
    (Char.ofNat (48 + d)).toNat = 48 + d := by
  have : ∀ e, e < 10 → (Char.ofNat (48 + e)).toNat = 48 + e := by decide
  exact this d h

theorem natChars_digits (n : Nat) : ∀ c ∈ natChars n,
    48 ≤ c.toNat ∧ c.toNat ≤ 57 := by
  induction n using Nat.strong_induction_on with
  | _ n ih =>
    rw [natChars_eq]
    by_cases hn : n < 10
    · simp only [hn, if_true, List.mem_singleton]
      intro c hc
      rw [hc, toNat_digitChar n hn]
      omega
    · have hd : n / 10 < n := Nat.div_lt_self (by omega) (by omega)
      simp only [hn, if_false, List.mem_append, List.mem_singleton]
      intro c hc
      rcases hc with hc | hc
      · exact ih (n / 10) hd c hc
      · rw [hc, toNat_digitChar (n % 10) (by omega)]
        omega

theorem natChars_ne_nil (n : Nat) : natChars n ≠ [] := by
  rw [natChars_eq]
  by_cases hn : n < 10 <;> simp [hn]

theorem natChars_cons (n : Nat) :
    ∃ c t, natChars n = c :: t ∧ 48 ≤ c.toNat ∧ c.toNat ≤ 57 := by
  cases hc : natChars n with
  | nil => exact absurd hc (natChars_ne_nil n)
  | cons c t =>
    have hm : c ∈ natChars n := by rw [hc]; exact List.mem_cons_self c t
    exact ⟨c, t, rfl, (natChars_digits n c hm).1, (natChars_digits n c hm).2⟩

theorem isDigitCh_of_bounds {c : Char} (h1 : 48 ≤ c.toNat) (h2 : c.toNat ≤ 57) :
    isDigitCh c = true := by
  simp [isDigitCh]
  omega

theorem takeDigits_digits_append (ds rest : List Char)
    (hds : ∀ c ∈ ds, isDigitCh c = true) (hrest : nonDigitStart rest) :
    takeDigits (ds ++ rest) = (ds, rest) := by
  induction ds with
  | nil =>
    simp only [List.nil_append]
    cases rest with
    | nil => rfl
    | cons c t =>
      have hc : isDigitCh c = false := hrest
      simp [takeDigits, hc]
  | cons c ds ih =>
    have hc : isDigitCh c = true := hds c (List.mem_cons_self c ds)
    simp [takeDigits, hc, ih fun x hx => hds x (List.mem_cons_of_mem c hx)]

theorem digitsVal_append_digit (ds : List Char) (c : Char) :
    digitsVal (ds ++ [c]) = digitsVal ds * 10 + (c.toNat - 48) := by
  simp [digitsVal, List.foldl_append]

theorem digitsVal_natChars (n : Nat) : digitsVal (natChars n) = n := by
  induction n using Nat.strong_induction_on with
  | _ n ih =>
    rw [natChars_eq]
    by_cases hn : n < 10
    · simp only [hn, if_true]
      simp [digitsVal, toNat_digitChar n hn]
    · have hd : n / 10 < n := Nat.div_lt_self (by omega) (by omega)
      simp only [hn, if_false]
      rw [digitsVal_append_digit, ih (n / 10) hd, toNat_digitChar (n % 10) (by omega)]
      omega

theorem parseNat_natChars (n : Nat) (rest : List Char) (h : nonDigitStart rest) :
    parseNat (natChars n ++ rest) = some (n, rest) := by
  have hds : ∀ c ∈ natChars n, isDigitCh c = true := fun c hc =>
    isDigitCh_of_bounds (natChars_digits n c hc).1 (natChars_digits n c hc).2
  unfold parseNat
  rw [takeDigits_digits_append (natChars n) rest hds h]
  obtain ⟨c, t, hct, _, _⟩ := natChars_cons n
  rw [hct]
  show some (digitsVal (c :: t), rest) = _
  rw [← hct, digitsVal_natChars]

theorem hexVal_hexLower (d : Nat) (h : d < 16) : hexVal (hexLower d) = some d := by
  have hall : ∀ e, e < 16 → hexVal (hexLower e) = some e := by decide
  exact hall d h

theorem parseStringBody_escString (ds : List Char) : ∀ rest : List Char,
    parseStringBody (escString ds ++ ('"' :: rest)) = some (ds, rest) := by
  induction ds with
  | nil => intro rest; rfl
  | cons c ds ih =>
    intro rest
    show parseStringBody ((escapeChars c ++ escString ds) ++ ('"' :: rest)) = _
    rw [List.append_assoc]
    by_cases h1 : c = '"'
    · subst h1
      simp [escapeChars, parseStringBody, parseEscape, unescapeChar, ih]
    · by_cases h2 : c = '\\'
      · subst h2
        simp [escapeChars, parseStringBody, parseEscape, unescapeChar, ih]
      · by_cases h3 : c = '\x08'
        · subst h3
          simp [escapeChars, parseStringBody, parseEscape, unescapeChar, ih]
        · by_cases h4 : c = '\t'
          · subst h4
            simp [escapeChars, parseStringBody, parseEscape, unescapeChar, ih]
          · by_cases h5 : c = '\n'
            · subst h5
              simp [escapeChars, parseStringBody, parseEscape, unescapeChar, ih]
            · by_cases h6 : c = '\x0c'
              · subst h6
                simp [escapeChars, parseStringBody, parseEscape, unescapeChar, ih]
              · by_cases h7 : c = '\r'
                · subst h7
                  simp [escapeChars, parseStringBody, parseEscape, unescapeChar, ih]
                · by_cases h8 : c.toNat < 32
                  · have hv1 : hexVal (hexLower (c.toNat / 16)) =
                        some (c.toNat / 16) := hexVal_hexLower _ (by omega)
                    have hv2 : hexVal (hexLower (c.toNat % 16)) =
                        some (c.toNat % 16) := hexVal_hexLower _ (by omega)
                    have hv0 : hexVal '0' = some 0 := by decide
                    have harith :
                        c.toNat / 16 * 16 + c.toNat % 16 = c.toNat := by omega
                    simp only [escapeChars, h1, h2, h3, h4, h5, h6, h7, if_false,
                      h8, if_true, List.cons_append, List.nil_append]
                    simp [parseStringBody, parseEscape, hv0, hv1, hv2, harith,
                      Char.ofNat_toNat, ih]
                  · simp only [escapeChars, h1, h2, h3, h4, h5, h6, h7, h8,
                      if_false, List.cons_append, List.nil_append]
                    simp [parseStringBody, h1, h2, ih]

theorem renderChars_head (j : Json) :
    ∃ c t, Json.renderChars j = c :: t ∧ c ≠ ']' ∧ c ≠ '\x7d' := by
  cases j with
  | null => exact ⟨'n', _, rfl, by decide, by decide⟩
  | bool b =>
    cases b with
    | true => exact ⟨'t', _, rfl, by decide, by decide⟩
    | false => exact ⟨'f', _, rfl, by decide, by decide⟩
  | num n =>
    cases n with
    | ofNat m =>
      obtain ⟨c, t, hct, h1, h2⟩ := natChars_cons m
      refine ⟨c, t, hct, ?_, ?_⟩
      · intro h; rw [h] at h2; exact absurd h2 (by decide)
      · intro h; rw [h] at h2; exact absurd h2 (by decide)
    | negSucc m => exact ⟨'-', _, rfl, by decide, by decide⟩
  | str s => exact ⟨'"', _, rfl, by decide, by decide⟩
  | arr xs => exact ⟨'[', _, rfl, by decide, by decide⟩
  | obj fs => exact ⟨'\x7b', _, rfl, by decide, by decide⟩

theorem renderChars_length_pos (j : Json) : 1 ≤ (Json.renderChars j).length := by
  obtain ⟨c, t, hct, -, -⟩ := renderChars_head j
  rw [hct]
  simp

theorem renderElemsTail_length_pos (xs : List Json) :
    1 ≤ (Json.renderElemsTail xs).length := by
  cases xs <;> simp [Json.renderElemsTail]

theorem renderFieldsTail_length_pos (fs : List (String × Json)) :
    1 ≤ (Json.renderFieldsTail fs).length := by
  cases fs with
  | nil => simp [Json.renderFieldsTail]
  | cons f fs2 =>
    obtain ⟨k, v⟩ := f
    simp [Json.renderFieldsTail]

theorem nonDigitStart_elemsTail (xs : List Json) (rest : List Char) :
    nonDigitStart (Json.renderElemsTail xs ++ rest) := by
  cases xs with
  | nil => exact (by decide : isDigitCh ']' = false)
  | cons y ys => exact (by decide : isDigitCh ',' = false)

theorem nonDigitStart_fieldsTail (fs : List (String × Json)) (rest : List Char) :
    nonDigitStart (Json.renderFieldsTail fs ++ rest) := by
  cases fs with
  | nil => exact (by decide : isDigitCh '\x7d' = false)
  | cons f fs2 =>
    obtain ⟨k, v⟩ := f
    exact (by decide : isDigitCh ',' = false)

mutual

theorem parseValue_render : ∀ (j : Json) (fuel : Nat) (rest : List Char),
    (Json.renderChars j).length < fuel → nonDigitStart rest →
    parseValue fuel (Json.renderChars j ++ rest) = some (j, rest)
  | .null, fuel, rest, hlen, hrest => by
    obtain ⟨f, rfl⟩ : ∃ f, fuel = f + 1 := ⟨fuel - 1, by omega⟩
    rfl
  | .bool true, fuel, rest, hlen, hrest => by
    obtain ⟨f, rfl⟩ : ∃ f, fuel = f + 1 := ⟨fuel - 1, by omega⟩
    rfl
  | .bool false, fuel, rest, hlen, hrest => by
    obtain ⟨f, rfl⟩ : ∃ f, fuel = f + 1 := ⟨fuel - 1, by omega⟩
    rfl
  | .num (.ofNat m), fuel, rest, hlen, hrest => by
    obtain ⟨f, rfl⟩ : ∃ f, fuel = f + 1 := ⟨fuel - 1, by omega⟩
    obtain ⟨c, t, hct, h1, h2⟩ := natChars_cons m
    have hinput : Json.renderChars (Json.num (Int.ofNat m)) ++ rest =
        c :: (t ++ rest) := by
      show natChars m ++ rest = _
      rw [hct, List.cons_append]
    rw [hinput]
    have hn : ¬c = 'n' := by intro h; rw [h] at h2; exact absurd h2 (by decide)
    have htt : ¬c = 't' := by intro h; rw [h] at h2; exact absurd h2 (by decide)
    have hff : ¬c = 'f' := by intro h; rw [h] at h2; exact absurd h2 (by decide)
    have hq : ¬c = '"' := by intro h; rw [h] at h1; exact absurd h1 (by decide)
    have hlb : ¬c = '[' := by intro h; rw [h] at h2; exact absurd h2 (by decide)
    have hob : ¬c = '\x7b' := by intro h; rw [h] at h2; exact absurd h2 (by decide)
    have hmn : ¬c = '-' := by intro h; rw [h] at h1; exact absurd h1 (by decide)
    simp only [parseValue, hn, htt, hff, hq, hlb, hob, hmn, if_false]
    rw [← List.cons_append, ← hct, parseNat_natChars m rest hrest]
    rfl
  | .num (.negSucc m), fuel, rest, hlen, hrest => by
    obtain ⟨f, rfl⟩ : ∃ f, fuel = f + 1 := ⟨fuel - 1, by omega⟩
    have hinput : Json.renderChars (Json.num (Int.negSucc m)) ++ rest =
        '-' :: (natChars (m + 1) ++ rest) := by
      show ('-' :: natChars (m + 1)) ++ rest = _
      rw [List.cons_append]
    rw [hinput]
    have hstep : parseValue (f + 1) ('-' :: (natChars (m + 1) ++ rest)) =
        (parseNat (natChars (m + 1) ++ rest)).map
          fun p => (.num (-(p.1 : Int)), p.2) := rfl
    rw [hstep, parseNat_natChars (m + 1) rest hrest]
    have hneg : (-((m + 1 : Nat) : Int)) = Int.negSucc m := by
      rw [Int.negSucc_eq]
      push_cast
      ring
    show some (Json.num (-((m + 1 : Nat) : Int)), rest) = _
    rw [hneg]
  | .str s, fuel, rest, hlen, hrest => by
    obtain ⟨f, rfl⟩ : ∃ f, fuel = f + 1 := ⟨fuel - 1, by omega⟩
    have hinput : Json.renderChars (Json.str s) ++ rest =
        '"' :: (escString s.data ++ ('"' :: rest)) := by
      show ('"' :: (escString s.data ++ ['"'])) ++ rest = _
      simp [List.append_assoc]
    rw [hinput]
    have hstep : parseValue (f + 1) ('"' :: (escString s.data ++ ('"' :: rest))) =
        (parseStringBody (escString s.data ++ ('"' :: rest))).map
          fun p => (.str (String.mk p.1), p.2) := rfl
    rw [hstep, parseStringBody_escString s.data rest]
    rfl
  | .arr xs, fuel, rest, hlen, hrest => by
    obtain ⟨f, rfl⟩ : ∃ f, fuel = f + 1 := ⟨fuel - 1, by omega⟩
    have hinput : Json.renderChars (Json.arr xs) ++ rest =
        '[' :: (Json.renderElems xs ++ rest) := by
      show ('[' :: Json.renderElems xs) ++ rest = _
      rw [List.cons_append]
    rw [hinput]
    have hstep : parseValue (f + 1) ('[' :: (Json.renderElems xs ++ rest)) =
        (parseArrayElems f (Json.renderElems xs ++ rest)).map
          fun p => (.arr p.1, p.2) := rfl
    have hsz : (Json.renderChars (Json.arr xs)).length =
        (Json.renderElems xs).length + 1 := by
      show ('[' :: Json.renderElems xs).length = _
      simp
    have hlx : (Json.renderElems xs).length < f := by omega
    rw [hstep, parseArrayElems_render xs f rest hlx hrest]
    rfl
  | .obj fs, fuel, rest, hlen, hrest => by
    obtain ⟨f, rfl⟩ : ∃ f, fuel = f + 1 := ⟨fuel - 1, by omega⟩
    have hinput : Json.renderChars (Json.obj fs) ++ rest =
        '\x7b' :: (Json.renderFields fs ++ rest) := by
      show ('\x7b' :: Json.renderFields fs) ++ rest = _
      rw [List.cons_append]
    rw [hinput]
    have hstep : parseValue (f + 1) ('\x7b' :: (Json.renderFields fs ++ rest)) =
        (parseObjFields f (Json.renderFields fs ++ rest)).map
          fun p => (.obj p.1, p.2) := rfl
    have hsz : (Json.renderChars (Json.obj fs)).length =
        (Json.renderFields fs).length + 1 := by
      show ('\x7b' :: Json.renderFields fs).length = _
      simp
    have hlx : (Json.renderFields fs).length < f := by omega
    rw [hstep, parseObjFields_render fs f rest hlx hrest]
    rfl
termination_by j => (Json.renderChars j).length
decreasing_by all_goals (simp_wf; omega)

theorem parseArrayElems_render : ∀ (xs : List Json) (fuel : Nat) (rest : List Char),
    (Json.renderElems xs).length < fuel → nonDigitStart rest →
    parseArrayElems fuel (Json.renderElems xs ++ rest) = some (xs, rest)
  | [], fuel, rest, hlen, hrest => by
    obtain ⟨f, rfl⟩ : ∃ f, fuel = f + 1 := ⟨fuel - 1, by omega⟩
    rfl
  | x :: xs2, fuel, rest, hlen, hrest => by
    obtain ⟨f, rfl⟩ : ∃ f, fuel = f + 1 := ⟨fuel - 1, by omega⟩
    obtain ⟨c, t, hct, hc1, hc2⟩ := renderChars_head x
    have hlens : (Json.renderElems (x :: xs2)).length =
        (Json.renderChars x).length + (Json.renderElemsTail xs2).length := by
      show (Json.renderChars x ++ Json.renderElemsTail xs2).length = _
      simp
    have hpt := renderElemsTail_length_pos xs2
    have hpx := renderChars_length_pos x
    have hlx : (Json.renderChars x).length < f := by omega
    have hlt : (Json.renderElemsTail xs2).length < f := by omega
    have hinput : Json.renderElems (x :: xs2) ++ rest =
        c :: (t ++ (Json.renderElemsTail xs2 ++ rest)) := by
      show (Json.renderChars x ++ Json.renderElemsTail xs2) ++ rest = _
      rw [hct]
      simp [List.append_assoc]
    rw [hinput]
    simp only [parseArrayElems, hc1, if_false]
    rw [show c :: (t ++ (Json.renderElemsTail xs2 ++ rest)) =
        Json.renderChars x ++ (Json.renderElemsTail xs2 ++ rest) from by
      rw [hct, List.cons_append]]
    rw [parseValue_render x f (Json.renderElemsTail xs2 ++ rest) hlx
      (nonDigitStart_elemsTail xs2 rest)]
    show (parseArrayTail f (Json.renderElemsTail xs2 ++ rest)).map
      (fun q => (x :: q.1, q.2)) = _
    rw [parseArrayTail_render xs2 f rest hlt hrest]
    rfl
termination_by xs => (Json.renderElems xs).length
decreasing_by all_goals (simp_wf; omega)

theorem parseArrayTail_render : ∀ (xs : List Json) (fuel : Nat) (rest : List Char),
    (Json.renderElemsTail xs).length < fuel → nonDigitStart rest →
    parseArrayTail fuel (Json.renderElemsTail xs ++ rest) = some (xs, rest)
  | [], fuel, rest, hlen, hrest => by
    obtain ⟨f, rfl⟩ : ∃ f, fuel = f + 1 := ⟨fuel - 1, by omega⟩
    rfl
  | x :: xs2, fuel, rest, hlen, hrest => by
    obtain ⟨f, rfl⟩ : ∃ f, fuel = f + 1 := ⟨fuel - 1, by omega⟩
    have hlens : (Json.renderElemsTail (x :: xs2)).length =
        1 + ((Json.renderChars x).length + (Json.renderElemsTail xs2).length) := by
      show (',' :: (Json.renderChars x ++ Json.renderElemsTail xs2)).length = _
      simp
      omega
    have hpt := renderElemsTail_length_pos xs2
    have hpx := renderChars_length_pos x
    have hlx : (Json.renderChars x).length < f := by omega
    have hlt : (Json.renderElemsTail xs2).length < f := by omega
    have hinput : Json.renderElemsTail (x :: xs2) ++ rest =
        ',' :: (Json.renderChars x ++ (Json.renderElemsTail xs2 ++ rest)) := by
      show (',' :: (Json.renderChars x ++ Json.renderElemsTail xs2)) ++ rest = _
      simp [List.append_assoc]
    rw [hinput]
    have hstep : parseArrayTail (f + 1)
        (',' :: (Json.renderChars x ++ (Json.renderElemsTail xs2 ++ rest))) =
        (parseValue f (Json.renderChars x ++ (Json.renderElemsTail xs2 ++ rest))).bind
          fun p => (parseArrayTail f p.2).map fun q => (p.1 :: q.1, q.2) := rfl
    rw [hstep, parseValue_render x f (Json.renderElemsTail xs2 ++ rest) hlx
      (nonDigitStart_elemsTail xs2 rest)]
    show (parseArrayTail f (Json.renderElemsTail xs2 ++ rest)).map
      (fun q => (x :: q.1, q.2)) = _
    rw [parseArrayTail_render xs2 f rest hlt hrest]
    rfl
termination_by xs => (Json.renderElemsTail xs).length
decreasing_by all_goals (simp_wf; omega)

theorem parseObjFields_render :
    ∀ (fs : List (String × Json)) (fuel : Nat) (rest : List Char),
    (Json.renderFields fs).length < fuel → nonDigitStart rest →
    parseObjFields fuel (Json.renderFields fs ++ rest) = some (fs, rest)
  | [], fuel, rest, hlen, hrest => by
    obtain ⟨f, rfl⟩ : ∃ f, fuel = f + 1 := ⟨fuel - 1, by omega⟩
    rfl
  | (k, v) :: fs2, fuel, rest, hlen, hrest => by
    obtain ⟨f, rfl⟩ : ∃ f, fuel = f + 1 := ⟨fuel - 1, by omega⟩
    have hlens : (Json.renderFields ((k, v) :: fs2)).length =
        1 + ((escString k.data).length + (2 + ((Json.renderChars v).length +
          (Json.renderFieldsTail fs2).length))) := by
      show ('"' :: (escString k.data ++ (['"', ':'] ++
        (Json.renderChars v ++ Json.renderFieldsTail fs2)))).length = _
      simp
      omega
    have hpt := renderFieldsTail_length_pos fs2
    have hpv := renderChars_length_pos v
    have hlv : (Json.renderChars v).length < f - 1 := by omega
    have hlt : (Json.renderFieldsTail fs2).length < f := by omega
    obtain ⟨f2, hf2⟩ : ∃ f2, f = f2 + 1 := ⟨f - 1, by omega⟩
    have hinput : Json.renderFields ((k, v) :: fs2) ++ rest =
        '"' :: (escString k.data ++ ('"' :: (':' ::
          (Json.renderChars v ++ (Json.renderFieldsTail fs2 ++ rest))))) := by
      show ('"' :: (escString k.data ++ (['"', ':'] ++
        (Json.renderChars v ++ Json.renderFieldsTail fs2)))) ++ rest = _
      simp [List.append_assoc]
    rw [hinput, hf2]
    have hstep : parseObjFields (f2 + 1 + 1)
        ('"' :: (escString k.data ++ ('"' :: (':' ::
          (Json.renderChars v ++ (Json.renderFieldsTail fs2 ++ rest)))))) =
        (parseField (f2 + 1) ('"' :: (escString k.data ++ ('"' :: (':' ::
          (Json.renderChars v ++ (Json.renderFieldsTail fs2 ++ rest))))))).bind
          fun p => (parseObjTail (f2 + 1) p.2).map fun q => (p.1 :: q.1, q.2) := rfl
    rw [hstep]
    have hfield : parseField (f2 + 1) ('"' :: (escString k.data ++ ('"' :: (':' ::
        (Json.renderChars v ++ (Json.renderFieldsTail fs2 ++ rest)))))) =
        some ((k, v), Json.renderFieldsTail fs2 ++ rest) := by
      have hstep2 : parseField (f2 + 1) ('"' :: (escString k.data ++ ('"' :: (':' ::
          (Json.renderChars v ++ (Json.renderFieldsTail fs2 ++ rest)))))) =
          (parseStringBody (escString k.data ++ ('"' :: (':' ::
            (Json.renderChars v ++ (Json.renderFieldsTail fs2 ++ rest)))))).bind
            fun p =>
              match p.2 with
              | [] => none
              | d :: cs3 =>
                if d = ':' then
                  (parseValue f2 cs3).map fun q => ((String.mk p.1, q.1), q.2)
                else none := rfl
      rw [hstep2, parseStringBody_escString k.data]
      show (parseValue f2 (Json.renderChars v ++
        (Json.renderFieldsTail fs2 ++ rest))).map
          (fun q => ((String.mk k.data, q.1), q.2)) = _
      rw [parseValue_render v f2 (Json.renderFieldsTail fs2 ++ rest)
        (by omega) (nonDigitStart_fieldsTail fs2 rest)]
      rfl
    rw [hfield]
    show (parseObjTail (f2 + 1) (Json.renderFieldsTail fs2 ++ rest)).map
      (fun q => ((k, v) :: q.1, q.2)) = _
    rw [parseObjTail_render fs2 (f2 + 1) rest (by omega) hrest]
    rfl
termination_by fs => (Json.renderFields fs).length
decreasing_by all_goals (simp_wf; omega)

theorem parseObjTail_render :
    ∀ (fs : List (String × Json)) (fuel : Nat) (rest : List Char),
    (Json.renderFieldsTail fs).length < fuel → nonDigitStart rest →
    parseObjTail fuel (Json.renderFieldsTail fs ++ rest) = some (fs, rest)
  | [], fuel, rest, hlen, hrest => by
    obtain ⟨f, rfl⟩ : ∃ f, fuel = f + 1 := ⟨fuel - 1, by omega⟩
    rfl
  | (k, v) :: fs2, fuel, rest, hlen, hrest => by
    obtain ⟨f, rfl⟩ : ∃ f, fuel = f + 1 := ⟨fuel - 1, by omega⟩
    have hlens : (Json.renderFieldsTail ((k, v) :: fs2)).length =
        2 + ((escString k.data).length + (2 + ((Json.renderChars v).length +
          (Json.renderFieldsTail fs2).length))) := by
      show (',' :: '"' :: (escString k.data ++ (['"', ':'] ++
        (Json.renderChars v ++ Json.renderFieldsTail fs2)))).length = _
      simp
      omega
    have hpt := renderFieldsTail_length_pos fs2
    have hpv := renderChars_length_pos v
    have hlv : (Json.renderChars v).length < f - 1 := by omega
    have hlt : (Json.renderFieldsTail fs2).length < f := by omega
    obtain ⟨f2, hf2⟩ : ∃ f2, f = f2 + 1 := ⟨f - 1, by omega⟩
    have hinput : Json.renderFieldsTail ((k, v) :: fs2) ++ rest =
        ',' :: ('"' :: (escString k.data ++ ('"' :: (':' ::
          (Json.renderChars v ++ (Json.renderFieldsTail fs2 ++ rest)))))) := by
      show (',' :: '"' :: (escString k.data ++ (['"', ':'] ++
        (Json.renderChars v ++ Json.renderFieldsTail fs2)))) ++ rest = _
      simp [List.append_assoc]
    rw [hinput, hf2]
    have hstep : parseObjTail (f2 + 1 + 1)
        (',' :: ('"' :: (escString k.data ++ ('"' :: (':' ::
          (Json.renderChars v ++ (Json.renderFieldsTail fs2 ++ rest))))))) =
        (parseField (f2 + 1) ('"' :: (escString k.data ++ ('"' :: (':' ::
          (Json.renderChars v ++ (Json.renderFieldsTail fs2 ++ rest))))))).bind
          fun p => (parseObjTail (f2 + 1) p.2).map fun q => (p.1 :: q.1, q.2) := rfl
    rw [hstep]
    have hfield : parseField (f2 + 1) ('"' :: (escString k.data ++ ('"' :: (':' ::
        (Json.renderChars v ++ (Json.renderFieldsTail fs2 ++ rest)))))) =
        some ((k, v), Json.renderFieldsTail fs2 ++ rest) := by
      have hstep2 : parseField (f2 + 1) ('"' :: (escString k.data ++ ('"' :: (':' ::
          (Json.renderChars v ++ (Json.renderFieldsTail fs2 ++ rest)))))) =
          (parseStringBody (escString k.data ++ ('"' :: (':' ::
            (Json.renderChars v ++ (Json.renderFieldsTail fs2 ++ rest)))))).bind
            fun p =>
              match p.2 with
              | [] => none
              | d :: cs3 =>
                if d = ':' then
                  (parseValue f2 cs3).map fun q => ((String.mk p.1, q.1), q.2)
                else none := rfl
      rw [hstep2, parseStringBody_escString k.data]
      show (parseValue f2 (Json.renderChars v ++
        (Json.renderFieldsTail fs2 ++ rest))).map
          (fun q => ((String.mk k.data, q.1), q.2)) = _
      rw [parseValue_render v f2 (Json.renderFieldsTail fs2 ++ rest)
        (by omega) (nonDigitStart_fieldsTail fs2 rest)]
      rfl
    rw [hfield]
    show (parseObjTail (f2 + 1) (Json.renderFieldsTail fs2 ++ rest)).map
      (fun q => ((k, v) :: q.1, q.2)) = _
    rw [parseObjTail_render fs2 (f2 + 1) rest (by omega) hrest]
    rfl
termination_by fs => (Json.renderFieldsTail fs).length
decreasing_by all_goals (simp_wf; omega)

end

/-- The serializer-parser round trip: parsing a rendered JSON value gives the
value back, for arbitrary nested JSON. -/
theorem Json.parse_render (j : Json) : Json.parse (Json.render j) = some j := by
  have h2 := parseValue_render j ((Json.renderChars j).length + 1) [] (by omega) trivial
  rw [List.append_nil] at h2
  show (match parseValue ((Json.renderChars j).length + 1) (Json.renderChars j) with
    | some (j, []) => some j
    | _ => none) = some j
  rw [h2]

/-- C1 (counterexample): the claim promises that a non-2xx response whose
body is unreadable still yields a Typed Failure with body equal to the empty
string; the code awaits `response.text()` without a `try`/`catch`, so the
read error propagates instead. At status 500 with an unreadable body, the
result is the propagated text-read failure, not the claimed API error with
empty body. -/
theorem claim1_counterexample_unreadable_body :
    ((SonarrClient.create ⟨"http://localhost:8989", "abc123"⟩).request "/series" {}
        (fun _ => .success ⟨500, "Internal Server Error",
          .error "body stream read failed", .error "invalid json"⟩)).1 =
      .error (.textFailed "body stream read failed") ∧
    ((SonarrClient.create ⟨"http://localhost:8989", "abc123"⟩).request "/series" {}
        (fun _ => .success ⟨500, "Internal Server Error",
          .error "body stream read failed", .error "invalid json"⟩)).1 ≠
      .error (.apiError "sonarr" 500 "Internal Server Error" "") := by
  have h1 : ((SonarrClient.create ⟨"http://localhost:8989", "abc123"⟩).request "/series" {}
      (fun _ => .success ⟨500, "Internal Server Error",
        .error "body stream read failed", .error "invalid json"⟩)).1 =
      .error (.textFailed "body stream read failed") := rfl
  refine ⟨h1, ?_⟩
  rw [h1]
  intro h
  exact absurd (Except.error.inj h) (by decide)

/-- C1 (amended): for every response with status outside 200–299 whose body
is readable as text (including the empty string for an empty body), the
executor fails with the Typed Failure carrying the configured service name,
the numeric status, the status text and the body text, propagated unchanged
to the caller with no retry (exactly one request is sent); when the body is
unreadable the read error propagates instead. -/
theorem claim1_amended_typed_failure (c : ArrClient) (endpoint : String)
    (options : RequestInit) (fetch : HttpRequest → FetchOutcome)
    (resp : HttpResponse) (t : String)
    (h : fetch (c.buildRequest endpoint options) = .success resp)
    (hok : resp.ok = false) (ht : resp.textBody = .ok t) :
    (c.request endpoint options fetch).1 =
      .error (.apiError c.serviceName.name resp.status resp.statusText t) ∧
    (c.request endpoint options fetch).2 = [c.buildRequest endpoint options] ∧
    (ArrFailure.apiError c.serviceName.name resp.status resp.statusText t).message =
      c.serviceName.name ++ " API error: " ++ toString resp.status ++ " " ++
        resp.statusText ++ " - " ++ t :=
  ⟨ArrClient.request_apiError h hok ht,
    ArrClient.request_trace c endpoint options fetch, rfl⟩

/-- C1 (witness): the spec's 401 scenario. The remote returns status 401
with status text `Unauthorized` and readable body `Unauthorized`; the
executor fails with the Typed Failure carrying service `sonarr`, status 401,
that status text and that body. -/
theorem claim1_amended_typed_failure_witness :
    ((fun _ => .success ⟨401, "Unauthorized", .ok "Unauthorized", .error "nope"⟩ :
        HttpRequest → FetchOutcome)
      ((SonarrClient.create ⟨"http://localhost:8989", "abc123"⟩).buildRequest
        "/qualityprofile" {}) =
      .success ⟨401, "Unauthorized", .ok "Unauthorized", .error "nope"⟩) ∧
    HttpResponse.ok ⟨401, "Unauthorized", .ok "Unauthorized", .error "nope"⟩ = false ∧
    ((SonarrClient.create ⟨"http://localhost:8989", "abc123"⟩).request
        "/qualityprofile" {}
        (fun _ => .success ⟨401, "Unauthorized", .ok "Unauthorized", .error "nope"⟩)).1 =
      .error (.apiError "sonarr" 401 "Unauthorized" "Unauthorized") :=
  ⟨rfl, rfl,
    (claim1_amended_typed_failure
      (SonarrClient.create ⟨"http://localhost:8989", "abc123"⟩) "/qualityprofile" {}
      (fun _ => .success ⟨401, "Unauthorized", .ok "Unauthorized", .error "nope"⟩)
      ⟨401, "Unauthorized", .ok "Unauthorized", .error "nope"⟩ "Unauthorized"
      rfl rfl rfl).1⟩

/-- C2: the URL of every issued request equals the configured base URL with
at most one trailing slash removed — the removal being performed once, by
the constructor — followed by `/api/`, the version segment and the relative
path; the request step concatenates without further normalization. -/
theorem claim2_url_construction (svc : ArrService) (cfg : ArrConfig)
    (version endpoint : String) (options : RequestInit)
    (fetch : HttpRequest → FetchOutcome) :
    (ArrClient.create svc cfg).config.url =
      (if cfg.url.data.getLast? = some '/' then String.mk cfg.url.data.dropLast
        else cfg.url) ∧
    (({ ArrClient.create svc cfg with apiVersion := version } : ArrClient).request
        endpoint options fetch).2 =
      [{ url := (if cfg.url.data.getLast? = some '/' then String.mk cfg.url.data.dropLast
            else cfg.url) ++ "/api/" ++ version ++ endpoint
         method := options.method
         headers := objSpread [("Content-Type", "application/json"),
           ("X-Api-Key", cfg.apiKey)] options.headers
         body := options.body }] := by
  refine ⟨rfl, ?_⟩
  rw [ArrClient.request_trace]
  rfl

/-- C3: for every response with status in 200–299 the executor returns the
platform-parsed JSON body structurally unchanged (no schema validation), a
body that is not valid JSON surfaces as the propagated parse failure, and
serialization into the HTTP body round-trips: for arbitrary nested JSON,
parsing a serialized value yields the value back structurally equal. -/
theorem claim3_success_passthrough (c : ArrClient) (endpoint : String)
    (options : RequestInit) (fetch : HttpRequest → FetchOutcome)
    (resp : HttpResponse)
    (h : fetch (c.buildRequest endpoint options) = .success resp)
    (hok : resp.ok = true) :
    (∀ j, resp.jsonBody = .ok j → (c.request endpoint options fetch).1 = .ok j) ∧
    (∀ msg, resp.jsonBody = .error msg →
      (c.request endpoint options fetch).1 = .error (.jsonFailed msg)) ∧
    (∀ j0 : Json, Json.parse (Json.render j0) = some j0) :=
  ⟨fun _ hj => ArrClient.request_success h hok hj,
    fun _ hm => ArrClient.request_parseFailure h hok hm,
    Json.parse_render⟩

/-- C3 (witness): the spec's success scenario. The one-profile array
serializes to `[{"id":1,"name":"HD-1080p"}]`, that body parses back to the
same array, and on a status-200 response carrying it the executor returns
the array unchanged. -/
theorem claim3_success_passthrough_witness :
    Json.render (.arr [.obj [("id", .num 1), ("name", .str "HD-1080p")]]) =
      "[\x7b\"id\":1,\"name\":\"HD-1080p\"\x7d]" ∧
    Json.parse "[\x7b\"id\":1,\"name\":\"HD-1080p\"\x7d]" =
      some (.arr [.obj [("id", .num 1), ("name", .str "HD-1080p")]]) ∧
    ((fun _ => .success ⟨200, "OK", .ok "ignored",
        .ok (.arr [.obj [("id", .num 1), ("name", .str "HD-1080p")]])⟩ :
        HttpRequest → FetchOutcome)
      ((SonarrClient.create ⟨"http://localhost:8989", "abc123"⟩).buildRequest
        "/qualityprofile" {}) =
      .success ⟨200, "OK", .ok "ignored",
        .ok (.arr [.obj [("id", .num 1), ("name", .str "HD-1080p")]])⟩) ∧
    HttpResponse.ok ⟨200, "OK", .ok "ignored",
      .ok (.arr [.obj [("id", .num 1), ("name", .str "HD-1080p")]])⟩ = true ∧
    ((SonarrClient.create ⟨"http://localhost:8989", "abc123"⟩).request
        "/qualityprofile" {}
        (fun _ => .success ⟨200, "OK", .ok "ignored",
          .ok (.arr [.obj [("id", .num 1), ("name", .str "HD-1080p")]])⟩)).1 =
      .ok (.arr [.obj [("id", .num 1), ("name", .str "HD-1080p")]]) :=
  ⟨by decide, rfl, rfl, rfl,
    (claim3_success_passthrough
      (SonarrClient.create ⟨"http://localhost:8989", "abc123"⟩) "/qualityprofile" {}
      (fun _ => .success ⟨200, "OK", .ok "ignored",
        .ok (.arr [.obj [("id", .num 1), ("name", .str "HD-1080p")]])⟩)
      ⟨200, "OK", .ok "ignored",
        .ok (.arr [.obj [("id", .num 1), ("name", .str "HD-1080p")]])⟩
      rfl rfl).1 _ rfl⟩

/-- C4: every issued request carries `Content-Type: application/json` and
`X-Api-Key: {configured key}` by default; a caller-supplied entry for a
default header replaces its value, and the `X-Api-Key` header is present in
every sent request. -/
theorem claim4_default_headers (c : ArrClient) (endpoint : String)
    (options : RequestInit) (fetch : HttpRequest → FetchOutcome) :
    (c.request endpoint options fetch).2 = [c.buildRequest endpoint options] ∧
    (hasKey options.headers "Content-Type" = false →
      objGet (c.buildRequest endpoint options).headers "Content-Type" =
        some "application/json") ∧
    (hasKey options.headers "X-Api-Key" = false →
      objGet (c.buildRequest endpoint options).headers "X-Api-Key" =
        some c.config.apiKey) ∧
    (∀ k v, objGet options.headers.reverse k = some v →
      objGet (c.buildRequest endpoint options).headers k = some v) ∧
    (∃ v, objGet (c.buildRequest endpoint options).headers "X-Api-Key" = some v) := by
  refine ⟨ArrClient.request_trace c endpoint options fetch, ?_, ?_, ?_, ?_⟩
  · intro h
    show objGet (objSpread c.defaultHeaders options.headers) "Content-Type" = _
    rw [objGet_objSpread, objGet_reverse_eq_none h]
    rfl
  · intro h
    show objGet (objSpread c.defaultHeaders options.headers) "X-Api-Key" = _
    rw [objGet_objSpread, objGet_reverse_eq_none h]
    rfl
  · intro k v h
    show objGet (objSpread c.defaultHeaders options.headers) k = _
    rw [objGet_objSpread, h]
  · show ∃ v, objGet (objSpread c.defaultHeaders options.headers) "X-Api-Key" = some v
    rw [objGet_objSpread]
    cases hx : objGet options.headers.reverse "X-Api-Key" with
    | some v => exact ⟨v, rfl⟩
    | none => exact ⟨c.config.apiKey, rfl⟩

/-- C4 (witness): with no caller headers, the defaults are present; with a
caller-supplied `X-Api-Key`, the caller's value replaces the default. -/
theorem claim4_default_headers_witness :
    hasKey ([] : List (String × String)) "X-Api-Key" = false ∧
    objGet ((SonarrClient.create ⟨"http://localhost:8989", "abc123"⟩).buildRequest
        "/tag" {}).headers "X-Api-Key" = some "abc123" ∧
    objGet ((SonarrClient.create ⟨"http://localhost:8989", "abc123"⟩).buildRequest
        "/tag" {}).headers "Content-Type" = some "application/json" ∧
    objGet ((SonarrClient.create ⟨"http://localhost:8989", "abc123"⟩).buildRequest
        "/tag" { headers := [("X-Api-Key", "other")] }).headers "X-Api-Key" =
      some "other" :=
  ⟨rfl,
    (claim4_default_headers (SonarrClient.create ⟨"http://localhost:8989", "abc123"⟩)
      "/tag" {} (fun _ => .failure "down")).2.2.1 rfl,
    (claim4_default_headers (SonarrClient.create ⟨"http://localhost:8989", "abc123"⟩)
      "/tag" {} (fun _ => .failure "down")).2.1 rfl,
    (claim4_default_headers (SonarrClient.create ⟨"http://localhost:8989", "abc123"⟩)
      "/tag" { headers := [("X-Api-Key", "other")] }
      (fun _ => .failure "down")).2.2.2.1 "X-Api-Key" "other" rfl⟩

/-- C5: the API version segment is fixed at construction time — `v3` for the
Sonarr and Radarr constructors, `v1` for the Lidarr, Readarr and Prowlarr
constructors — and every request of a client addresses that same version
prefix and carries the same `X-Api-Key` value from the immutable
configuration. -/
theorem claim5_fixed_version_and_auth (cfg : ArrConfig) :
    (SonarrClient.create cfg).apiVersion = "v3" ∧
    (RadarrClient.create cfg).apiVersion = "v3" ∧
    (LidarrClient.create cfg).apiVersion = "v1" ∧
    (ReadarrClient.create cfg).apiVersion = "v1" ∧
    (ProwlarrClient.create cfg).apiVersion = "v1" ∧
    ∀ (c : ArrClient) (endpoint : String) (options : RequestInit),
      options.headers = [] →
      (c.buildRequest endpoint options).url =
        c.config.url ++ "/api/" ++ c.apiVersion ++ endpoint ∧
      objGet (c.buildRequest endpoint options).headers "X-Api-Key" =
        some c.config.apiKey := by
  refine ⟨rfl, rfl, rfl, rfl, rfl, ?_⟩
  intro c endpoint options h
  refine ⟨rfl, ?_⟩
  show objGet (objSpread c.defaultHeaders options.headers) "X-Api-Key" = _
  rw [h]
  rfl

/-- C5 (witness): two different requests of one Lidarr client use version
`v1` and the same key. -/
theorem claim5_fixed_version_and_auth_witness :
    (({} : RequestInit).headers = [] ∧
      (LidarrClient.create ⟨"http://localhost:8686", "key1"⟩).apiVersion = "v1") ∧
    ((LidarrClient.create ⟨"http://localhost:8686", "key1"⟩).buildRequest
        "/artist" {}).url = "http://localhost:8686/api/v1/artist" ∧
    objGet ((LidarrClient.create ⟨"http://localhost:8686", "key1"⟩).buildRequest
        "/album" {}).headers "X-Api-Key" = some "key1" :=
  ⟨⟨rfl, (claim5_fixed_version_and_auth ⟨"http://localhost:8686", "key1"⟩).2.2.1⟩,
    ((claim5_fixed_version_and_auth ⟨"http://localhost:8686", "key1"⟩).2.2.2.2.2
      (LidarrClient.create ⟨"http://localhost:8686", "key1"⟩) "/artist" {} rfl).1,
    ((claim5_fixed_version_and_auth ⟨"http://localhost:8686", "key1"⟩).2.2.2.2.2
      (LidarrClient.create ⟨"http://localhost:8686", "key1"⟩) "/album" {} rfl).2⟩

/-- C6: for every calendar method, supplying both dates makes the request
path carry exactly the two query parameters `start` and `end` with the
supplied values (the path is `/calendar?` followed by the serialization of
exactly that two-entry parameter list), and omitting both dates produces a
request to `/calendar` with no query string at all. -/
theorem claim6_calendar_query (c : ArrClient) (startDate endDate : String)
    (fetch : HttpRequest → FetchOutcome)
    (hs : startDate ≠ "") (he : endDate ≠ "") :
    calendarParams (some startDate) (some endDate) =
      [("start", startDate), ("end", endDate)] ∧
    calendarEndpoint (some startDate) (some endDate) =
      "/calendar?" ++ searchParamsToString [("start", startDate), ("end", endDate)] ∧
    calendarParams none none = [] ∧
    calendarEndpoint none none = "/calendar" ∧
    (∀ sd ed, (ArrClient.getCalendar c sd ed fetch).2 =
      [c.buildRequest (calendarEndpoint sd ed) {}]) ∧
    (∀ sd ed, (LidarrClient.getCalendar c sd ed fetch).2 =
      [c.buildRequest (calendarEndpoint sd ed) {}]) ∧
    (∀ sd ed, (ReadarrClient.getCalendar c sd ed fetch).2 =
      [c.buildRequest (calendarEndpoint sd ed) {}]) := by
  have hbs : (startDate == "") = false := beq_eq_false_iff_ne.mpr hs
  have hbe : (endDate == "") = false := beq_eq_false_iff_ne.mpr he
  have hp : calendarParams (some startDate) (some endDate) =
      [("start", startDate), ("end", endDate)] := by
    simp [calendarParams, truthyStr, hbs, hbe]
  have hne : searchParamsToString [("start", startDate), ("end", endDate)] ≠ "" := by
    intro hcontra
    have hlen := congrArg String.length hcontra
    have h1 : (formEncode "start").length = 5 := by decide
    have h2 : (formEncode "end").length = 3 := by decide
    have h3 : ("=" : String).length = 1 := rfl
    have h4 : ("&" : String).length = 1 := rfl
    have h5 : ("" : String).length = 0 := rfl
    simp only [searchParamsToString, String.length_append, h1, h2, h3, h4, h5] at hlen
    omega
  refine ⟨hp, ?_, rfl, rfl,
    fun sd ed => ArrClient.request_trace c (calendarEndpoint sd ed) {} fetch,
    fun sd ed => ArrClient.request_trace c (calendarEndpoint sd ed) {} fetch,
    fun sd ed => ArrClient.request_trace c (calendarEndpoint sd ed) {} fetch⟩
  show "/calendar" ++ _ = _
  rw [hp]
  have hb : (searchParamsToString [("start", startDate), ("end", endDate)] == "") =
      false := beq_eq_false_iff_ne.mpr hne
  rw [hb]
  simp only [Bool.false_eq_true, if_false]
  rw [← String.append_assoc]
  rfl

/-- C6 (witness): the spec's concrete dates. Both supplied yields exactly
`start=2025-01-01` and `end=2025-01-08`; both omitted yields `/calendar`. -/
theorem claim6_calendar_query_witness :
    ("2025-01-01" : String) ≠ "" ∧ ("2025-01-08" : String) ≠ "" ∧
    calendarParams (some "2025-01-01") (some "2025-01-08") =
      [("start", "2025-01-01"), ("end", "2025-01-08")] ∧
    calendarEndpoint (some "2025-01-01") (some "2025-01-08") =
      "/calendar?start=2025-01-01&end=2025-01-08" ∧
    calendarEndpoint none none = "/calendar" ∧
    ((LidarrClient.create ⟨"http://localhost:8686", "k"⟩).getCalendar
        (some "2025-01-01") (some "2025-01-08") (fun _ => .failure "down")).2 =
      [(LidarrClient.create ⟨"http://localhost:8686", "k"⟩).buildRequest
        "/calendar?start=2025-01-01&end=2025-01-08" {}] :=
  ⟨by decide, by decide,
    (claim6_calendar_query (LidarrClient.create ⟨"http://localhost:8686", "k"⟩)
      "2025-01-01" "2025-01-08" (fun _ => .failure "down")
      (by decide) (by decide)).1,
    by decide, by decide,
    (claim6_calendar_query (LidarrClient.create ⟨"http://localhost:8686", "k"⟩)
      "2025-01-01" "2025-01-08" (fun _ => .failure "down")
      (by decide) (by decide)).2.2.2.2.1 (some "2025-01-01") (some "2025-01-08")⟩

/-- C7: each trigger-search method issues a POST to `/command` whose body is
the serialization of exactly the fixed command name for the entity type plus
the id — `SeriesSearch`/`seriesId`, `MoviesSearch`/`movieIds` (singleton
array), `AlbumSearch`/`albumIds` (singleton array),
`AuthorSearch`/`authorId` — and the parsed response (carrying the
remote-assigned command identifier) is returned unchanged. -/
theorem claim7_trigger_search (c : ArrClient) (id : Int)
    (fetch : HttpRequest → FetchOutcome) :
    (SonarrClient.searchMissing c id fetch).2 =
      [{ url := c.config.url ++ "/api/" ++ c.apiVersion ++ "/command"
         method := "POST"
         headers := c.defaultHeaders
         body := some (Json.render (.obj
           [("name", .str "SeriesSearch"), ("seriesId", .num id)])) }] ∧
    (RadarrClient.searchMovie c id fetch).2 =
      [{ url := c.config.url ++ "/api/" ++ c.apiVersion ++ "/command"
         method := "POST"
         headers := c.defaultHeaders
         body := some (Json.render (.obj
           [("name", .str "MoviesSearch"), ("movieIds", .arr [.num id])])) }] ∧
    (LidarrClient.searchAlbum c id fetch).2 =
      [{ url := c.config.url ++ "/api/" ++ c.apiVersion ++ "/command"
         method := "POST"
         headers := c.defaultHeaders
         body := some (Json.render (.obj
           [("name", .str "AlbumSearch"), ("albumIds", .arr [.num id])])) }] ∧
    (ReadarrClient.searchMissingBooks c id fetch).2 =
      [{ url := c.config.url ++ "/api/" ++ c.apiVersion ++ "/command"
         method := "POST"
         headers := c.defaultHeaders
         body := some (Json.render (.obj
           [("name", .str "AuthorSearch"), ("authorId", .num id)])) }] ∧
    (∀ resp j, fetch (c.buildRequest "/command"
        { method := "POST"
          body := some (Json.render (.obj
            [("name", .str "SeriesSearch"), ("seriesId", .num id)])) }) =
          .success resp →
      resp.ok = true → resp.jsonBody = .ok j →
      (SonarrClient.searchMissing c id fetch).1 = .ok j) ∧
    (∀ resp j, fetch (c.buildRequest "/command"
        { method := "POST"
          body := some (Json.render (.obj
            [("name", .str "MoviesSearch"), ("movieIds", .arr [.num id])])) }) =
          .success resp →
      resp.ok = true → resp.jsonBody = .ok j →
      (RadarrClient.searchMovie c id fetch).1 = .ok j) ∧
    (∀ resp j, fetch (c.buildRequest "/command"
        { method := "POST"
          body := some (Json.render (.obj
            [("name", .str "AlbumSearch"), ("albumIds", .arr [.num id])])) }) =
          .success resp →
      resp.ok = true → resp.jsonBody = .ok j →
      (LidarrClient.searchAlbum c id fetch).1 = .ok j) ∧
    (∀ resp j, fetch (c.buildRequest "/command"
        { method := "POST"
          body := some (Json.render (.obj
            [("name", .str "AuthorSearch"), ("authorId", .num id)])) }) =
          .success resp →
      resp.ok = true → resp.jsonBody = .ok j →
      (ReadarrClient.searchMissingBooks c id fetch).1 = .ok j) :=
  ⟨ArrClient.request_trace c "/command" _ fetch,
    ArrClient.request_trace c "/command" _ fetch,
    ArrClient.request_trace c "/command" _ fetch,
    ArrClient.request_trace c "/command" _ fetch,
    fun _ _ h hok hj => ArrClient.request_success h hok hj,
    fun _ _ h hok hj => ArrClient.request_success h hok hj,
    fun _ _ h hok hj => ArrClient.request_success h hok hj,
    fun _ _ h hok hj => ArrClient.request_success h hok hj⟩

/-- C7 (witness): for id 5, the Sonarr body is exactly
`{"name":"SeriesSearch","seriesId":5}`, and a 201 response whose parsed body
is `{"id":99}` is returned unchanged. -/
theorem claim7_trigger_search_witness :
    Json.render (.obj [("name", .str "SeriesSearch"), ("seriesId", .num 5)]) =
      "\x7b\"name\":\"SeriesSearch\",\"seriesId\":5\x7d" ∧
    Json.render (.obj [("name", .str "MoviesSearch"), ("movieIds", .arr [.num 5])]) =
      "\x7b\"name\":\"MoviesSearch\",\"movieIds\":[5]\x7d" ∧
    HttpResponse.ok ⟨201, "Created", .ok "", .ok (.obj [("id", .num 99)])⟩ = true ∧
    ((SonarrClient.create ⟨"http://localhost:8989", "abc123"⟩) |> fun c =>
      (SonarrClient.searchMissing c 5
        (fun _ => .success ⟨201, "Created", .ok "", .ok (.obj [("id", .num 99)])⟩)).1 =
        .ok (.obj [("id", .num 99)])) :=
  ⟨by decide, by decide, rfl,
    (claim7_trigger_search (SonarrClient.create ⟨"http://localhost:8989", "abc123"⟩) 5
      (fun _ => .success ⟨201, "Created", .ok "", .ok (.obj [("id", .num 99)])⟩)).2.2.2.2.1
      ⟨201, "Created", .ok "", .ok (.obj [("id", .num 99)])⟩
      (.obj [("id", .num 99)]) rfl rfl rfl⟩

/-- C8: the client holds no cache and no mutable state: a call's outcome is a
function of the configuration, the endpoint, the options and the remote's
response alone, so two successive calls against a remote that answers both
identically produce identical results, and every call sends exactly the one
built request over the network. -/
theorem claim8_stateless_idempotent (c : ArrClient) (endpoint : String)
    (options : RequestInit) (outcome : FetchOutcome) :
    ArrClient.runCalls c [(endpoint, options, outcome), (endpoint, options, outcome)] =
      [c.request endpoint options fun _ => outcome,
        c.request endpoint options fun _ => outcome] ∧
    (c.request endpoint options fun _ => outcome).2 =
      [c.buildRequest endpoint options] :=
  ⟨rfl, ArrClient.request_trace c endpoint options fun _ => outcome⟩

/-- C9: `testConnection` always returns a boolean: `true` exactly when the
underlying `getStatus` call succeeds, `false` on every failure (transport
error, non-2xx status or parse error), with the error's content discarded;
it performs the same single network call `getStatus` performs. -/
theorem claim9_testConnection_total (c : ArrClient)
    (fetch : HttpRequest → FetchOutcome) :
    ((c.testConnection fetch).1 = true ↔ ∃ j, (c.getStatus fetch).1 = .ok j) ∧
    (∀ e, (c.getStatus fetch).1 = .error e → (c.testConnection fetch).1 = false) ∧
    (c.testConnection fetch).2 = (c.getStatus fetch).2 := by
  cases h : c.getStatus fetch with
  | mk r tr =>
    cases r with
    | ok j => refine ⟨?_, ?_, ?_⟩ <;> simp [ArrClient.testConnection, h]
    | error e => refine ⟨?_, ?_, ?_⟩ <;> simp [ArrClient.testConnection, h]

/-- C9 (witness): a connection-refused transport failure yields `false`; a
200 status response yields `true`. -/
theorem claim9_testConnection_total_witness :
    ((SonarrClient.create ⟨"http://localhost:8989", "abc123"⟩).getStatus
        (fun _ => .failure "ECONNREFUSED")).1 =
      .error (.fetchFailed "ECONNREFUSED") ∧
    ((SonarrClient.create ⟨"http://localhost:8989", "abc123"⟩).testConnection
        (fun _ => .failure "ECONNREFUSED")).1 = false ∧
    ((SonarrClient.create ⟨"http://localhost:8989", "abc123"⟩).testConnection
        (fun _ => .success ⟨200, "OK", .ok "", .ok (.obj [])⟩)).1 = true :=
  ⟨rfl,
    (claim9_testConnection_total (SonarrClient.create ⟨"http://localhost:8989", "abc123"⟩)
      (fun _ => .failure "ECONNREFUSED")).2.1 (.fetchFailed "ECONNREFUSED") rfl,
    (claim9_testConnection_total (SonarrClient.create ⟨"http://localhost:8989", "abc123"⟩)
      (fun _ => .success ⟨200, "OK", .ok "", .ok (.obj [])⟩)).1.mpr ⟨.obj [], rfl⟩⟩

/-- C10: every add method augments the caller's payload before sending: an
omitted `monitored` field is set to `true`, and an `addOptions` object with
the family's search-on-add flag set to `true` is always present, overriding
any caller-supplied `addOptions`; the augmented payload is what is POSTed. -/
theorem claim10_add_augmentation (series movie artist author : List (String × Json)) :
    (objGet series "monitored" = none →
      objGet (SonarrClient.addSeriesPayload series) "monitored" = some (.bool true)) ∧
    objGet (SonarrClient.addSeriesPayload series) "addOptions" =
      some (.obj [("searchForMissingEpisodes", .bool true)]) ∧
    (objGet movie "monitored" = none →
      objGet (RadarrClient.addMoviePayload movie) "monitored" = some (.bool true)) ∧
    objGet (RadarrClient.addMoviePayload movie) "addOptions" =
      some (.obj [("searchForMovie", .bool true)]) ∧
    (objGet artist "monitored" = none →
      objGet (LidarrClient.addArtistPayload artist) "monitored" = some (.bool true)) ∧
    objGet (LidarrClient.addArtistPayload artist) "addOptions" =
      some (.obj [("searchForMissingAlbums", .bool true)]) ∧
    (objGet author "monitored" = none →
      objGet (ReadarrClient.addAuthorPayload author) "monitored" = some (.bool true)) ∧
    objGet (ReadarrClient.addAuthorPayload author) "addOptions" =
      some (.obj [("searchForMissingBooks", .bool true)]) ∧
    (∀ c fetch, (SonarrClient.addSeries c series fetch).2 =
      [c.buildRequest "/series"
        { method := "POST"
          body := some (Json.render (.obj (SonarrClient.addSeriesPayload series))) }]) ∧
    (∀ c fetch, (RadarrClient.addMovie c movie fetch).2 =
      [c.buildRequest "/movie"
        { method := "POST"
          body := some (Json.render (.obj (RadarrClient.addMoviePayload movie))) }]) ∧
    (∀ c fetch, (LidarrClient.addArtist c artist fetch).2 =
      [c.buildRequest "/artist"
        { method := "POST"
          body := some (Json.render (.obj (LidarrClient.addArtistPayload artist))) }]) ∧
    (∀ c fetch, (ReadarrClient.addAuthor c author fetch).2 =
      [c.buildRequest "/author"
        { method := "POST"
          body := some (Json.render (.obj (ReadarrClient.addAuthorPayload author))) }]) := by
  refine ⟨?_, ?_, ?_, ?_, ?_, ?_, ?_, ?_,
    fun c fetch => ArrClient.request_trace c "/series" _ fetch,
    fun c fetch => ArrClient.request_trace c "/movie" _ fetch,
    fun c fetch => ArrClient.request_trace c "/artist" _ fetch,
    fun c fetch => ArrClient.request_trace c "/author" _ fetch⟩
  · intro h
    unfold SonarrClient.addSeriesPayload
    rw [objGet_objUpsert_other _ (by decide), objGet_objUpsert_other _ (by decide),
      objGet_objUpsert_self, h]
    rfl
  · exact objGet_objUpsert_self _ _ _
  · intro h
    unfold RadarrClient.addMoviePayload
    rw [objGet_objUpsert_other _ (by decide), objGet_objUpsert_self, h]
    rfl
  · exact objGet_objUpsert_self _ _ _
  · intro h
    unfold LidarrClient.addArtistPayload
    rw [objGet_objUpsert_other _ (by decide), objGet_objUpsert_self, h]
    rfl
  · exact objGet_objUpsert_self _ _ _
  · intro h
    unfold ReadarrClient.addAuthorPayload
    rw [objGet_objUpsert_other _ (by decide), objGet_objUpsert_self, h]
    rfl
  · exact objGet_objUpsert_self _ _ _

/-- C10 (witness): a payload that omits `monitored` gets `monitored: true`,
and a caller-supplied `addOptions` is overridden by the fixed one. -/
theorem claim10_add_augmentation_witness :
    objGet ([] : List (String × Json)) "monitored" = none ∧
    objGet (SonarrClient.addSeriesPayload []) "monitored" = some (.bool true) ∧
    objGet (RadarrClient.addMoviePayload
        [("addOptions", .obj [("searchForMovie", .bool false)])]) "addOptions" =
      some (.obj [("searchForMovie", .bool true)]) :=
  ⟨rfl,
    (claim10_add_augmentation [] [] [] []).1 rfl,
    (claim10_add_augmentation []
      [("addOptions", .obj [("searchForMovie", .bool false)])] [] []).2.2.2.1⟩
